import Mathlib

/-!
Verification of the purge-and-preload pipeline implemented in
purgepreload.py.  The script walks a sitemap tree, filters page URLs by
domain, derives purge URLs, dispatches rate-limited purge requests and
warms the cache.  This development gives a shallow embedding of the pure
logic of that script: URLs are lists of characters, the relevant part of
the Python urllib.parse.urlparse algorithm is embedded directly, network
responses are supplied by oracles, and the side-effect order of the purge
dispatcher (requests and sleeps) is recorded as an explicit event trace.
-/

namespace PurgePreload

/-- URLs and URL components are modelled as lists of characters. -/
abbrev Url := List Char

/-! ## Embedding of urllib.parse.urlparse (the parts the script uses)

The script reads the fields netloc, path and query of a parse result.
The definitions below follow the CPython algorithm: sanitize the input,
split off the scheme, the network location, the fragment, the query, and
finally the params of the last path segment.  IPv6 bracket validation and
the NFKC netloc check, which only raise on exotic inputs, are omitted;
lowercasing is ASCII lowercasing. -/

/-- Split a list at the first occurrence of c.  Returns the part before
the first c and, when c occurs, the part after it (Python split(c, 1)). -/
def splitOnce (c : Char) : List Char → List Char × Option (List Char)
  | [] => ([], none)
  | x :: xs =>
    if x = c then ([], some xs)
    else
      let r := splitOnce c xs
      (x :: r.1, r.2)

/-- Python idiom: if c in url then url.split(c, 1) else (url, empty). -/
def splitFirst (c : Char) (l : List Char) : List Char × List Char :=
  match splitOnce c l with
  | (pre, some post) => (pre, post)
  | (_, none) => (l, [])

/-- Characters allowed in a URL scheme after the first letter. -/
def isSchemeChar (c : Char) : Bool :=
  c.isAlpha || c.isDigit || c = '+' || c = '-' || c = '.'

/-- Split off the scheme: a leading run of scheme characters starting with
a letter, terminated by a colon.  Returns (scheme lowercased, rest). -/
def splitScheme (url : List Char) : List Char × List Char :=
  match splitOnce ':' url with
  | (c0 :: cs, some post) =>
    if c0.isAlpha && cs.all isSchemeChar then ((c0 :: cs).map Char.toLower, post)
    else ([], url)
  | _ => ([], url)

/-- A character that terminates the network-location component. -/
def isNetlocEnd (c : Char) : Bool := c = '/' || c = '?' || c = '#'

/-- After the scheme, a leading // introduces the network location, which
extends to the next /, ? or #. -/
def splitNetloc (url : List Char) : List Char × List Char :=
  match url with
  | '/' :: '/' :: rest =>
    (rest.takeWhile (fun c => !isNetlocEnd c), rest.dropWhile (fun c => !isNetlocEnd c))
  | _ => ([], url)

/-- C0 control characters and space, stripped from both ends of a URL. -/
def isC0OrSpace (c : Char) : Bool := c.toNat ≤ 32

/-- Tab, carriage return and newline are removed anywhere in a URL. -/
def isUnsafeByte (c : Char) : Bool := c = '\t' || c = '\r' || c = '\n'

/-- WHATWG-style sanitization performed by urlsplit: strip C0 controls and
spaces from both ends, then delete tab, CR and LF everywhere. -/
def sanitizeUrl (url : List Char) : List Char :=
  (((url.dropWhile isC0OrSpace).reverse.dropWhile isC0OrSpace).reverse).filter
    (fun c => !isUnsafeByte c)

/-- The six components of a parsed URL, as in urllib.parse.ParseResult. -/
structure ParseResult where
  scheme : Url
  netloc : Url
  path : Url
  params : Url
  query : Url
  fragment : Url
deriving DecidableEq

/-- Embedding of urllib.parse.urlsplit: sanitize, then split scheme,
netloc, fragment and query in that order; params stays empty here. -/
def urlsplit (url : Url) : ParseResult :=
  let url1 := sanitizeUrl url
  let s := splitScheme url1
  let n := splitNetloc s.2
  let f := splitFirst '#' n.2
  let q := splitFirst '?' f.1
  { scheme := s.1, netloc := n.1, path := q.1, params := [], query := q.2, fragment := f.2 }

/-- Split the params from the path: the part of the last path segment
after a semicolon (Python urllib.parse, function splitting params). -/
def splitparams (p : Url) : Url × Url :=
  let iOpt : Option Nat :=
    if '/' ∈ p then
      match p.reverse.findIdx? (fun c => c = '/') with
      | none => none
      | some j =>
        let slashIdx := p.length - 1 - j
        ((p.drop slashIdx).findIdx? (fun c => c = ';')).map (fun k => k + slashIdx)
    else
      p.findIdx? (fun c => c = ';')
  match iOpt with
  | none => (p, [])
  | some i => (p.take i, p.drop (i + 1))

/-- Embedding of urllib.parse.urlparse: urlsplit followed by splitting
the params out of the path. -/
def urlparse (url : Url) : ParseResult :=
  let r := urlsplit url
  let pp := splitparams r.path
  { r with path := pp.1, params := pp.2 }

/-- The hostname derived from a netloc, as in ParseResult.hostname: drop
the userinfo up to the last @, keep a bracketed IPv6 literal or else the
part before the port colon, and lowercase. -/
def hostname (netloc : Url) : Url :=
  let hostinfo := (netloc.reverse.takeWhile (fun c => c ≠ '@')).reverse
  let host :=
    if '[' ∈ hostinfo then
      ((hostinfo.dropWhile (fun c => c ≠ '[')).drop 1).takeWhile (fun c => c ≠ ']')
    else
      hostinfo.takeWhile (fun c => c ≠ ':')
  host.map Char.toLower

/-! ## Sitemap tree walker (process_sitemap)

The script fetches each sitemap over the network.  The embedding
pre-resolves every fetch: a document is either a urlset whose entries are
the optional loc texts of its url elements (none models a url element
without a loc child, on which the script raises AttributeError), a
sitemap index whose children record the loc of each sitemap element
together with the outcome of fetching it, or a document with any other
root tag. -/

/-- The ways the recursive sitemap walk can raise. -/
inductive WalkErr : Type where
  | attributeError : WalkErr
  | fetchError : WalkErr
deriving DecidableEq

mutual
/-- A fetched and parsed sitemap document. -/
inductive Doc : Type where
  | sitemapindex : List IndexChild → Doc
  | urlset : List (Option Url) → Doc
  | other : Doc

/-- One sitemap element of a sitemap index: either it has no loc child
(the script raises), or fetching its loc raises, or the fetch yields a
document. -/
inductive IndexChild : Type where
  | noLoc : IndexChild
  | fetchFail : Url → IndexChild
  | found : Url → Doc → IndexChild
end

/-- Equality of Except values is decidable when it is on both sides. -/
instance {ε α : Type} [DecidableEq ε] [DecidableEq α] : DecidableEq (Except ε α)
  | Except.ok x, Except.ok y =>
    if h : x = y then Decidable.isTrue (by rw [h])
    else Decidable.isFalse (by intro hc; cases hc; exact h rfl)
  | Except.ok _, Except.error _ => Decidable.isFalse (by intro hc; cases hc)
  | Except.error _, Except.ok _ => Decidable.isFalse (by intro hc; cases hc)
  | Except.error e, Except.error f =>
    if h : e = f then Decidable.isTrue (by rw [h])
    else Decidable.isFalse (by intro hc; cases hc; exact h rfl)

/-- The urlset arm of process_sitemap: keep each loc text whose parsed
netloc equals the target domain; a missing loc raises AttributeError. -/
def process_sitemap_entries (site_domain : Url) :
    List (Option Url) → Except WalkErr (List Url)
  | [] => Except.ok []
  | none :: _ => Except.error WalkErr.attributeError
  | some page_url :: rest =>
    match process_sitemap_entries site_domain rest with
    | Except.error e => Except.error e
    | Except.ok vs =>
      Except.ok (if (urlparse page_url).netloc = site_domain then page_url :: vs else vs)

mutual
/-- Embedding of process_sitemap on an already fetched document. -/
def process_sitemap (site_domain : Url) : Doc → Except WalkErr (List Url)
  | Doc.sitemapindex kids => process_sitemap_children site_domain kids
  | Doc.urlset entries => process_sitemap_entries site_domain entries
  | Doc.other => Except.ok []

/-- The sitemap-index arm: walk each child in order and append, raising
on a missing loc or a failed child fetch. -/
def process_sitemap_children (site_domain : Url) :
    List IndexChild → Except WalkErr (List Url)
  | [] => Except.ok []
  | IndexChild.noLoc :: _ => Except.error WalkErr.attributeError
  | IndexChild.fetchFail _ :: _ => Except.error WalkErr.fetchError
  | IndexChild.found _ d :: rest =>
    match process_sitemap site_domain d with
    | Except.error e => Except.error e
    | Except.ok us =>
      match process_sitemap_children site_domain rest with
      | Except.error e => Except.error e
      | Except.ok vs => Except.ok (us ++ vs)
end

/-! ## Purge URL derivation (generate_purge_urls) -/

/-- Embedding of generate_purge_urls: for each page URL take the parsed
path (slash when empty), prepend the purge base, and append the query
behind a question mark when it is nonempty. -/
def generate_purge_urls : List Url → Url → List Url
  | [], _ => []
  | url :: rest, purge_base =>
    let parsed := urlparse url
    let path := if parsed.path ≠ [] then parsed.path else ['/']
    let purge_url := purge_base ++ path
    let purge_url2 :=
      if parsed.query ≠ [] then purge_url ++ '?' :: parsed.query else purge_url
    purge_url2 :: generate_purge_urls rest purge_base

/-- The path defaulted to a single slash when empty, as in the deriver. -/
def pathOrSlash (p : Url) : Url := if p ≠ [] then p else ['/']

/-- The query suffix the deriver appends: a question mark and the query
when the query is nonempty, nothing otherwise. -/
def qsuffix (q : Url) : Url := if q ≠ [] then '?' :: q else []

/-- One step of the deriver loop, written with the two helpers. -/
def derive_purge_url (purge_base : Url) (u : Url) : Url :=
  purge_base ++ pathOrSlash (urlparse u).path ++ qsuffix (urlparse u).query

/-! ## Purge dispatcher (send_purge_requests)

The outcome of each GET is supplied with the URL: either an HTTP status
code or a transport exception.  Besides the list of failed URLs the
embedding returns the trace of observable effects, in order: one request
event per attempt and one sleep event for every executed time.sleep.
In the script the sleep sits inside the try block after the status
check, so an attempt that raises skips its sleep. -/

/-- Outcome of one HTTP request: a status code, or a raised exception. -/
inductive HttpResult : Type where
  | status : Nat → HttpResult
  | exn : HttpResult
deriving DecidableEq

/-- Observable effects of the dispatcher: a GET of a URL, or a sleep of
the configured delay. -/
inductive PEvent : Type where
  | request : Url → PEvent
  | sleep : ℚ → PEvent
deriving DecidableEq

/-- Embedding of send_purge_requests: returns (failed URLs in attempt
order, effect trace).  Status 200 counts as success; any other status
appends the URL to the failures and still sleeps; an exception appends
the URL to the failures and skips the sleep. -/
def send_purge_requests (delay : ℚ) : List (Url × HttpResult) → List Url × List PEvent
  | [] => ([], [])
  | (url, res) :: rest =>
    let r := send_purge_requests delay rest
    match res with
    | HttpResult.status code =>
      (if code = 200 then r.1 else url :: r.1,
       PEvent.request url :: PEvent.sleep delay :: r.2)
    | HttpResult.exn => (url :: r.1, PEvent.request url :: r.2)

/-! ## Run orchestrator (main)

Command-line parsing and printing are glue; the embedding keeps the
decision structure of main after argument parsing.  The root sitemap
fetch result, the purge responses and the warmer are oracles; the warmer
is a function from the page list to its failure list because its
completion order is nondeterministic. -/

/-- The configuration main derives from the command line. -/
structure Args where
  protocol : Url
  domain : Url
  delay : ℚ
  skip_purge : Bool
  skip_warm : Bool

/-- How a run ends: the neutral no-URLs outcome, a completed run with its
two failure lists, or a fatal exit with the process exit code. -/
inductive RunOutcome : Type where
  | nothingToDo : RunOutcome
  | completed : Nat → List Url → List Url → RunOutcome
  | fatalExit : Nat → RunOutcome
deriving DecidableEq

/-- protocol://domain, as built by main. -/
def baseUrl (a : Args) : Url := a.protocol ++ (':' :: '/' :: '/' :: []) ++ a.domain

/-- The purge base URL main appends /purge to. -/
def purgeBase (a : Args) : Url := baseUrl a ++ ('/' :: 'p' :: 'u' :: 'r' :: 'g' :: 'e' :: [])

/-- The site domain main extracts as the netloc of the base URL. -/
def siteDomain (a : Args) : Url := (urlparse (baseUrl a)).netloc

/-- Embedding of main after argument parsing.  A walk error is caught by
the catch-all handlers and exits with code 1; an empty page list stops
with the neutral outcome; each phase runs unless skipped, a skipped
phase contributing an empty failure list. -/
def main_run (a : Args) (root : Except Unit Doc) (purgeResp : Url → HttpResult)
    (warmer : List Url → List Url) : RunOutcome :=
  let walk : Except WalkErr (List Url) :=
    match root with
    | Except.error _ => Except.error WalkErr.fetchError
    | Except.ok doc => process_sitemap (siteDomain a) doc
  match walk with
  | Except.error _ => RunOutcome.fatalExit 1
  | Except.ok pages =>
    if pages = [] then RunOutcome.nothingToDo
    else
      let purge_targets := generate_purge_urls pages (purgeBase a)
      let purge_failures :=
        if a.skip_purge then []
        else (send_purge_requests a.delay (purge_targets.map (fun u => (u, purgeResp u)))).1
      let warm_failures := if a.skip_warm then [] else warmer pages
      RunOutcome.completed pages.length purge_failures warm_failures

/-! ## Fixed oracles and arguments used by the concrete witnesses -/

/-- An oracle answering status 200 to every request. -/
def alwaysOk : Url → HttpResult := fun _ => HttpResult.status 200

/-- A warmer oracle reporting no failures. -/
def neverFails : List Url → List Url := fun _ => []

/-- Arguments for site.ca over https with both phases skipped. -/
def argsSkipAll : Args :=
  { protocol := "https".data, domain := "site.ca".data, delay := 1,
    skip_purge := true, skip_warm := true }

/-! ## Helper lemmas -/

/-- The deriver loop computes derive_purge_url pointwise. -/
theorem generate_purge_urls_eq_map (l : List Url) (purge_base : Url) :
    generate_purge_urls l purge_base = l.map (derive_purge_url purge_base) := by
  induction l with
  | nil => rfl
  | cons u rest ih =>
    simp only [generate_purge_urls, List.map_cons, ih, derive_purge_url, pathOrSlash, qsuffix]
    by_cases hq : (urlparse u).query = [] <;> simp [hq, List.append_assoc]

/-- getD of a mapped list at an index below the length. -/
theorem getD_map_of_lt {α β : Type} (f : α → β) (dA : α) (dB : β) :
    ∀ (l : List α) (i : Nat), i < l.length → (l.map f).getD i dB = f (l.getD i dA)
  | [], i, h => absurd h (by simp)
  | _ :: _, 0, _ => rfl
  | _ :: xs, i + 1, h => by
    simp only [List.map_cons, List.getD_cons_succ]
    exact getD_map_of_lt f dA dB xs i (by simpa using h)

/-- Appending a question-mark suffix is injective in the query. -/
theorem qsuffix_inj {q1 q2 : Url} (h : qsuffix q1 = qsuffix q2) : q1 = q2 := by
  by_cases h1 : q1 = [] <;> by_cases h2 : q2 = [] <;>
    simp_all [qsuffix]

/-- The urlset arm keeps exactly the entries whose netloc is the domain. -/
theorem process_sitemap_entries_map_some (site_domain : Url) (locs : List Url) :
    process_sitemap_entries site_domain (locs.map some)
      = Except.ok (locs.filter (fun u => (urlparse u).netloc = site_domain)) := by
  induction locs with
  | nil => rfl
  | cons u rest ih =>
    simp only [List.map_cons, process_sitemap_entries, ih, List.filter_cons]
    by_cases h : (urlparse u).netloc = site_domain <;> simp [h]

/-! ## Claims -/

/-- Claim C1 (amended): for every configured delay and every sequence of
attempt outcomes, the dispatcher trace has, after each attempt that
yielded an HTTP response of any status, a sleep of the configured delay,
while an attempt that raised a transport exception is followed by no
sleep; in particular, for 3 URLs where the 2nd returns status 500, the
failure list is exactly that URL and a sleep of the configured delay
follows each of the three attempts. -/
theorem dispatcher_sleep_trace (delay : ℚ) (attempts : List (Url × HttpResult)) :
    (send_purge_requests delay attempts).2
      = attempts.flatMap (fun atp =>
          PEvent.request atp.1 ::
            (match atp.2 with
             | HttpResult.status _ => [PEvent.sleep delay]
             | HttpResult.exn => []))
    ∧ (∀ u1 u2 u3 : Url,
        send_purge_requests delay
          [(u1, HttpResult.status 200), (u2, HttpResult.status 500), (u3, HttpResult.status 200)]
          = ([u2],
             [PEvent.request u1, PEvent.sleep delay, PEvent.request u2, PEvent.sleep delay,
              PEvent.request u3, PEvent.sleep delay])) := by
  constructor
  · induction attempts with
    | nil => rfl
    | cons atp rest ih =>
      obtain ⟨u, r⟩ := atp
      cases r <;> simp [send_purge_requests, ih, List.flatMap_cons]
  · intro u1 u2 u3
    simp [send_purge_requests]

/-- Claim C1 (counterexample): an attempt that raises a transport
exception is recorded as a failure but is followed by no sleep, so the
dispatcher does not wait the configured delay after every failed
attempt. -/
theorem dispatcher_sleep_trace_counterexample :
    (send_purge_requests (1 : ℚ) [("https://site.ca/purge/a".data, HttpResult.exn)]).2
      = [PEvent.request "https://site.ca/purge/a".data]
    ∧ PEvent.sleep (1 : ℚ)
        ∉ (send_purge_requests (1 : ℚ) [("https://site.ca/purge/a".data, HttpResult.exn)]).2 := by
  constructor
  · rfl
  · simp [send_purge_requests]

/-- Claim C5: the dispatcher classifies an attempt as success exactly
when the status is 200; any other status or a transport exception puts
the URL on the failure list, which is ordered by attempt order, and the
trace shows exactly one request per URL in attempt order, so nothing is
retried. -/
theorem dispatcher_failure_classification (delay : ℚ) (attempts : List (Url × HttpResult)) :
    (send_purge_requests delay attempts).1
      = (attempts.filter (fun atp => atp.2 ≠ HttpResult.status 200)).map Prod.fst
    ∧ (send_purge_requests delay attempts).2.filterMap
        (fun e => match e with
          | PEvent.request u => some u
          | PEvent.sleep _ => none)
      = attempts.map Prod.fst := by
  induction attempts with
  | nil => exact ⟨rfl, rfl⟩
  | cons atp rest ih =>
    obtain ⟨u, r⟩ := atp
    obtain ⟨ih1, ih2⟩ := ih
    cases r with
    | status code =>
      by_cases h : code = 200
      · subst h
        exact ⟨by simp [send_purge_requests, List.filter_cons, ih1],
               by simp [send_purge_requests, List.filterMap_cons, ih2]⟩
      · have hne : (HttpResult.status code ≠ HttpResult.status 200) := by
          intro hc
          cases hc
          exact h rfl
        exact ⟨by simp [send_purge_requests, List.filter_cons, hne, h, ih1],
               by simp [send_purge_requests, List.filterMap_cons, ih2]⟩
    | exn =>
      exact ⟨by simp [send_purge_requests, List.filter_cons, ih1],
             by simp [send_purge_requests, List.filterMap_cons, ih2]⟩

/-- Claim C2: the deriver returns a list of the same length, and at every
index the output is the purge base followed by the parsed path of the
input URL at that index (a slash when the path is empty) followed by a
question mark and the query exactly when the query is nonempty; on the
concrete page URL of the spec the derived purge URL is exactly the
expected one. -/
theorem deriver_pointwise (page_urls : List Url) (purge_base : Url) :
    (generate_purge_urls page_urls purge_base).length = page_urls.length
    ∧ (∀ i : Nat, i < page_urls.length →
        (generate_purge_urls page_urls purge_base).getD i []
          = purge_base ++ pathOrSlash (urlparse (page_urls.getD i [])).path
              ++ qsuffix (urlparse (page_urls.getD i [])).query)
    ∧ generate_purge_urls ["https://site.ca/foo/bar?x=1".data] "https://site.ca/purge".data
        = ["https://site.ca/purge/foo/bar?x=1".data] := by
  refine ⟨?_, ?_, by decide⟩
  · rw [generate_purge_urls_eq_map]
    exact List.length_map _ _
  · intro i hi
    rw [generate_purge_urls_eq_map, getD_map_of_lt (derive_purge_url purge_base) [] [] _ i hi]
    rfl

/-- Claim C2 witness: at the concrete singleton input with an empty path
the derived purge URL is the purge base with path slash. -/
theorem deriver_pointwise_witness :
    (generate_purge_urls ["https://site.ca".data] "https://site.ca/purge".data).getD 0 []
      = "https://site.ca/purge".data ++ pathOrSlash (urlparse "https://site.ca".data).path
          ++ qsuffix (urlparse "https://site.ca".data).query :=
  (deriver_pointwise ["https://site.ca".data] "https://site.ca/purge".data).2.1 0 (by decide)

/-- Claim C6: for two page URLs whose parsed paths agree, the derived
purge URLs share the stem formed from the purge base and that path and
differ only in the appended question-mark query suffix, and they are
equal exactly when the two query strings are equal. -/
theorem deriver_query_only (purge_base u1 u2 : Url)
    (hpath : (urlparse u1).path = (urlparse u2).path) :
    generate_purge_urls [u1] purge_base
        = [purge_base ++ pathOrSlash (urlparse u1).path ++ qsuffix (urlparse u1).query]
    ∧ generate_purge_urls [u2] purge_base
        = [purge_base ++ pathOrSlash (urlparse u1).path ++ qsuffix (urlparse u2).query]
    ∧ (generate_purge_urls [u1] purge_base = generate_purge_urls [u2] purge_base
        ↔ (urlparse u1).query = (urlparse u2).query) := by
  refine ⟨by simp [generate_purge_urls_eq_map, derive_purge_url],
          by simp [generate_purge_urls_eq_map, derive_purge_url, hpath],
          ?_⟩
  constructor
  · intro h
    rw [generate_purge_urls_eq_map, generate_purge_urls_eq_map] at h
    simp only [List.map_cons, List.map_nil, List.cons.injEq, and_true,
      derive_purge_url, hpath, List.append_assoc] at h
    exact qsuffix_inj (List.append_cancel_left (List.append_cancel_left h))
  · intro h
    simp [generate_purge_urls_eq_map, derive_purge_url, hpath, h]

/-- Claim C6 witness: two concrete page URLs differing only in the query
pair give purge URLs with the same stem and the two query suffixes, and
the equality test reduces to the queries. -/
theorem deriver_query_only_witness :
    generate_purge_urls ["https://site.ca/foo?a=1".data] "https://site.ca/purge".data
        = ["https://site.ca/purge".data
            ++ pathOrSlash (urlparse "https://site.ca/foo?a=1".data).path
            ++ qsuffix (urlparse "https://site.ca/foo?a=1".data).query]
    ∧ generate_purge_urls ["https://site.ca/foo?b=2".data] "https://site.ca/purge".data
        = ["https://site.ca/purge".data
            ++ pathOrSlash (urlparse "https://site.ca/foo?a=1".data).path
            ++ qsuffix (urlparse "https://site.ca/foo?b=2".data).query]
    ∧ (generate_purge_urls ["https://site.ca/foo?a=1".data] "https://site.ca/purge".data
          = generate_purge_urls ["https://site.ca/foo?b=2".data] "https://site.ca/purge".data
        ↔ (urlparse "https://site.ca/foo?a=1".data).query
            = (urlparse "https://site.ca/foo?b=2".data).query) :=
  deriver_query_only "https://site.ca/purge".data "https://site.ca/foo?a=1".data
    "https://site.ca/foo?b=2".data (by decide)

/-- Claim C10: the deriver discards scheme, host and fragment, so two
page URLs with the same parsed path and query derive the same purge URL
whatever their schemes or hosts. -/
theorem deriver_ignores_scheme_host (purge_base u1 u2 : Url)
    (hpath : (urlparse u1).path = (urlparse u2).path)
    (hq : (urlparse u1).query = (urlparse u2).query) :
    generate_purge_urls [u1] purge_base = generate_purge_urls [u2] purge_base := by
  simp [generate_purge_urls_eq_map, derive_purge_url, hpath, hq]

/-- Claim C10 witness: two distinct concrete URLs with different scheme,
host and fragment but the same path and query derive the same purge URL,
so derivation is not injective on full URLs. -/
theorem deriver_ignores_scheme_host_witness :
    generate_purge_urls ["http://a.com/x?q=1#frag".data] "https://site.ca/purge".data
        = generate_purge_urls ["https://b.org/x?q=1".data] "https://site.ca/purge".data
    ∧ "http://a.com/x?q=1#frag".data ≠ "https://b.org/x?q=1".data :=
  ⟨deriver_ignores_scheme_host "https://site.ca/purge".data "http://a.com/x?q=1#frag".data
      "https://b.org/x?q=1".data (by decide) (by decide),
   by decide⟩

/-- Claim C3 (amended): the walker includes a urlset entry exactly when
the full network-location of the entry equals the supplied domain under
case-sensitive string equality, in document order; a urlset whose
entries all have a different netloc yields the empty sequence. -/
theorem walker_filters_by_netloc (site_domain : Url) (locs : List Url) :
    process_sitemap site_domain (Doc.urlset (locs.map some))
      = Except.ok (locs.filter (fun u => (urlparse u).netloc = site_domain))
    ∧ ((∀ u ∈ locs, (urlparse u).netloc ≠ site_domain) →
        process_sitemap site_domain (Doc.urlset (locs.map some)) = Except.ok []) := by
  refine ⟨by simp [process_sitemap, process_sitemap_entries_map_some], fun hoff => ?_⟩
  have hnil : locs.filter (fun u => (urlparse u).netloc = site_domain) = [] := by
    rw [List.filter_eq_nil_iff]
    intro u hu
    simpa using hoff u hu
  simp [process_sitemap, process_sitemap_entries_map_some, hnil]

/-- Claim C3 (counterexample): the entry https://site.ca:443/x has host
site.ca, equal to the supplied domain, yet the walker drops it because
its netloc site.ca:443 differs, so inclusion is not equivalent to host
equality. -/
theorem walker_filters_by_netloc_counterexample :
    hostname (urlparse "https://site.ca:443/x".data).netloc = "site.ca".data
    ∧ process_sitemap "site.ca".data (Doc.urlset [some "https://site.ca:443/x".data])
        = Except.ok [] := by
  exact ⟨by decide, by decide⟩

/-- Claim C3 witness: a urlset whose only entry lives on another netloc
yields the empty sequence. -/
theorem walker_filters_by_netloc_witness :
    process_sitemap "other.ca".data (Doc.urlset (["https://site.ca/a".data].map some))
      = Except.ok [] :=
  (walker_filters_by_netloc "other.ca".data ["https://site.ca/a".data]).2 (by decide)

/-- Claim C4: on a sitemap index whose children each walk successfully,
the walker returns the concatenation, in child order, of the child
outputs. -/
theorem walker_index_concat (site_domain : Url) (kids : List (Url × Doc))
    (results : List (List Url))
    (h : List.Forall₂ (fun kd r => process_sitemap site_domain kd.2 = Except.ok r) kids results) :
    process_sitemap site_domain
        (Doc.sitemapindex (kids.map (fun kd => IndexChild.found kd.1 kd.2)))
      = Except.ok results.flatten := by
  induction h with
  | nil => simp [process_sitemap, process_sitemap_children]
  | cons h1 h2 ih =>
    have ih2 := ih
    simp only [process_sitemap] at ih2
    simp [process_sitemap, process_sitemap_children, h1, ih2]

/-- Claim C4 witness: an index of two one-page urlsets walks to the
concatenation of the two child outputs. -/
theorem walker_index_concat_witness :
    process_sitemap "site.ca".data
        (Doc.sitemapindex
          ([("https://site.ca/s1.xml".data, Doc.urlset [some "https://site.ca/a".data]),
            ("https://site.ca/s2.xml".data, Doc.urlset [some "https://site.ca/b".data])].map
            (fun kd => IndexChild.found kd.1 kd.2)))
      = Except.ok [["https://site.ca/a".data], ["https://site.ca/b".data]].flatten :=
  walker_index_concat "site.ca".data _ _
    (List.Forall₂.cons (by decide) (List.Forall₂.cons (by decide) List.Forall₂.nil))

/-- Claim C8: the domain filter compares the full network-location, so a
urlset entry whose netloc is the domain followed by an explicit port is
excluded from the output. -/
theorem walker_netloc_port_excluded (site_domain u port : Url)
    (h : (urlparse u).netloc = site_domain ++ ':' :: port) :
    process_sitemap site_domain (Doc.urlset [some u]) = Except.ok [] := by
  have hne : (urlparse u).netloc ≠ site_domain := by
    rw [h]
    intro hc
    have hlen := congrArg List.length hc
    simp at hlen
  simp [process_sitemap, process_sitemap_entries, hne]

/-- Claim C8 witness: with domain site.ca the entry https://site.ca:443/x
is excluded even though its host is site.ca. -/
theorem walker_netloc_port_excluded_witness :
    process_sitemap "site.ca".data (Doc.urlset [some "https://site.ca:443/x".data])
      = Except.ok [] :=
  walker_netloc_port_excluded "site.ca".data "https://site.ca:443/x".data "443".data (by decide)

/-- Claim C9: a url entry without a loc child makes the urlset walk raise
AttributeError, a sitemap entry without a loc child makes the index walk
raise, and any walk error reaches the orchestrator catch-all, which
exits with code 1; the entry is not silently skipped. -/
theorem walker_missing_loc_aborts (site_domain : Url) (entries : List (Option Url))
    (kids : List IndexChild) (a : Args) (doc : Doc)
    (purgeResp : Url → HttpResult) (warmer : List Url → List Url) :
    (none ∈ entries →
      process_sitemap site_domain (Doc.urlset entries) = Except.error WalkErr.attributeError)
    ∧ (IndexChild.noLoc ∈ kids →
        ∃ e, process_sitemap site_domain (Doc.sitemapindex kids) = Except.error e)
    ∧ (∀ e, process_sitemap (siteDomain a) doc = Except.error e →
        main_run a (Except.ok doc) purgeResp warmer = RunOutcome.fatalExit 1) := by
  refine ⟨fun hmem => ?_, fun hmem => ?_, fun e he => ?_⟩
  · simp only [process_sitemap]
    induction entries with
    | nil => cases hmem
    | cons ent rest ih =>
      cases ent with
      | none => rfl
      | some u =>
        have hr : none ∈ rest := by simpa using hmem
        simp [process_sitemap_entries, ih hr]
  · simp only [process_sitemap]
    induction kids with
    | nil => cases hmem
    | cons k rest ih =>
      cases k with
      | noLoc => exact ⟨WalkErr.attributeError, rfl⟩
      | fetchFail l => exact ⟨WalkErr.fetchError, rfl⟩
      | found l d =>
        have hr : IndexChild.noLoc ∈ rest := by simpa using hmem
        obtain ⟨e, he⟩ := ih hr
        cases hd : process_sitemap site_domain d with
        | error e2 => exact ⟨e2, by simp [process_sitemap_children, hd]⟩
        | ok us => exact ⟨e, by simp [process_sitemap_children, hd, he]⟩
  · simp [main_run, he]

/-- Claim C9 witness: a urlset with a second entry lacking its loc child
walks to AttributeError and the whole run exits with code 1. -/
theorem walker_missing_loc_aborts_witness :
    process_sitemap "site.ca".data (Doc.urlset [some "https://site.ca/a".data, none])
      = Except.error WalkErr.attributeError
    ∧ main_run argsSkipAll (Except.ok (Doc.urlset [some "https://site.ca/a".data, none]))
        alwaysOk neverFails = RunOutcome.fatalExit 1 := by
  have h := walker_missing_loc_aborts "site.ca".data [some "https://site.ca/a".data, none]
    [] argsSkipAll (Doc.urlset [some "https://site.ca/a".data, none]) alwaysOk neverFails
  exact ⟨h.1 (by decide), h.2.2 WalkErr.attributeError (by decide)⟩

/-- Claim C7: when the walk yields zero page URLs the run stops with the
neutral nothing-to-do outcome rather than an error, and a phase skipped
by its flag contributes an empty failure list to the final report. -/
theorem orchestrator_outcomes (a : Args) (doc : Doc)
    (purgeResp : Url → HttpResult) (warmer : List Url → List Url) :
    (process_sitemap (siteDomain a) doc = Except.ok [] →
      main_run a (Except.ok doc) purgeResp warmer = RunOutcome.nothingToDo)
    ∧ (∀ pages, process_sitemap (siteDomain a) doc = Except.ok pages → pages ≠ [] →
        a.skip_purge = true →
        main_run a (Except.ok doc) purgeResp warmer
          = RunOutcome.completed pages.length []
              (if a.skip_warm then [] else warmer pages))
    ∧ (∀ pages, process_sitemap (siteDomain a) doc = Except.ok pages → pages ≠ [] →
        a.skip_warm = true →
        main_run a (Except.ok doc) purgeResp warmer
          = RunOutcome.completed pages.length
              (if a.skip_purge then []
               else (send_purge_requests a.delay
                  ((generate_purge_urls pages (purgeBase a)).map
                    (fun u => (u, purgeResp u)))).1)
              []) := by
  refine ⟨fun h0 => ?_, fun pages hw hne hsp => ?_, fun pages hw hne hsw => ?_⟩
  · simp [main_run, h0]
  · simp [main_run, hw, hne, hsp]
  · simp [main_run, hw, hne, hsw]

/-- Claim C7 witness: an empty urlset stops with the neutral outcome, and
with both phases skipped a one-page walk completes with two empty
failure lists. -/
theorem orchestrator_outcomes_witness :
    main_run argsSkipAll (Except.ok (Doc.urlset [])) alwaysOk neverFails
        = RunOutcome.nothingToDo
    ∧ main_run argsSkipAll (Except.ok (Doc.urlset [some "https://site.ca/a".data]))
        alwaysOk neverFails
        = RunOutcome.completed 1 []
            (if argsSkipAll.skip_warm then [] else neverFails ["https://site.ca/a".data]) :=
  ⟨(orchestrator_outcomes argsSkipAll (Doc.urlset []) alwaysOk neverFails).1 (by decide),
   (orchestrator_outcomes argsSkipAll (Doc.urlset [some "https://site.ca/a".data])
      alwaysOk neverFails).2.1 ["https://site.ca/a".data] (by decide) (by decide) rfl⟩

end PurgePreload
